import Mathlib

/-!
Verification of the Aurora-Monitor monitoring engine.

Shallow embedding of `src/ping_service.py` and `src/monitor_service.py`:
Python dictionaries become association lists (so that `defaultdict`
key-insertion on read is visible), latencies become rationals, and the
asynchronous per-target monitoring loop becomes an explicit step function
over the monitor state together with the list of alerts it emits.
-/

namespace Aurora

abbrev Target := String

/-- Python `dict` lookup: the binding for the key, if any. -/
def dictGet? : List (Target × α) → Target → Option α
  | [], _ => none
  | p :: rest, k => if p.1 = k then some p.2 else dictGet? rest k

/-- Python `dict.get(k, dflt)`: lookup with a default, no mutation. -/
def dictGetD (d : List (Target × α)) (k : Target) (dflt : α) : α :=
  (dictGet? d k).getD dflt

/-- Python `dict` setitem: update the binding in place, or append a new one
at the end (Python dicts preserve insertion order). -/
def dictSet : List (Target × α) → Target → α → List (Target × α)
  | [], k, v => [(k, v)]
  | p :: rest, k, v => if p.1 = k then (k, v) :: rest else p :: dictSet rest k v

/-- Python `defaultdict` getitem: return the stored value, or insert the
default for a missing key and return it (the insertion is a real mutation). -/
def ddGet (d : List (Target × α)) (dflt : α) (k : Target) : α × List (Target × α) :=
  match dictGet? d k with
  | some v => (v, d)
  | none => (dflt, d ++ [(k, dflt)])

/-- `statistics.mean` on a nonempty list (callers guard against empty). -/
def mean (xs : List ℚ) : ℚ :=
  xs.sum / xs.length

/-- State of `PingService` (`src/ping_service.py`): configuration plus the
per-target latency history (`deque(maxlen=100)`) and anomaly counters. -/
structure PingService where
  anomaly_threshold : ℚ
  anomaly_count : ℕ
  ping_history : List (Target × List ℚ)
  anomaly_counters : List (Target × ℕ)
deriving DecidableEq

/-- Appending to a `deque(maxlen=n)`: the oldest entries are evicted from
the left so that at most `n` remain. -/
def dequeAppend (maxlen : ℕ) (xs : List ℚ) (x : ℚ) : List ℚ :=
  let ys := xs ++ [x]
  if ys.length ≤ maxlen then ys else ys.drop (ys.length - maxlen)

/-- `PingService.add_to_history`: `self.ping_history[target].append(latency)`
(defaultdict read, then append into the bounded deque). -/
def add_to_history (s : PingService) (target : Target) (latency : ℚ) : PingService :=
  let (h, ph) := ddGet s.ping_history [] target
  { s with ping_history := dictSet ph target (dequeAppend 100 h latency) }

/-- `PingService.check_anomaly`: returns `(is_anomaly, average_latency)` and
the updated service state. -/
def check_anomaly (s : PingService) (target : Target) (current_latency : ℚ) :
    (Bool × ℚ) × PingService :=
  let (history, ph) := ddGet s.ping_history [] target
  let s1 : PingService := { s with ping_history := ph }
  if history.length < 10 then
    ((false, 0), s1)
  else
    let avg_latency := mean history
    let threshold := avg_latency * (1 + s1.anomaly_threshold / 100)
    if threshold < current_latency then
      let (c, ac) := ddGet s1.anomaly_counters 0 target
      let c := c + 1
      let ac := dictSet ac target c
      if s1.anomaly_count ≤ c then
        ((true, avg_latency), { s1 with anomaly_counters := dictSet ac target 0 })
      else
        ((false, avg_latency), { s1 with anomaly_counters := ac })
    else
      ((false, avg_latency), { s1 with anomaly_counters := dictSet s1.anomaly_counters target 0 })

/-- `PingService.get_average_latency`: rolling mean, or 0.0 for an empty
history; the `defaultdict` read may insert an empty history entry. -/
def get_average_latency (s : PingService) (target : Target) : ℚ × PingService :=
  let (history, ph) := ddGet s.ping_history [] target
  let s1 : PingService := { s with ping_history := ph }
  if history.length = 0 then (0, s1) else (mean history, s1)

/-- `PingService.reset_anomaly_counter`. -/
def reset_anomaly_counter (s : PingService) (target : Target) : PingService :=
  { s with anomaly_counters := dictSet s.anomaly_counters target 0 }

/-- Outcome of one probe-backend attempt (`icmp_ping` / `dns_ping` result). -/
structure ProbeResult where
  success : Bool
  latency : ℚ
deriving DecidableEq

/-- The accumulator loop of `PingService.ping_with_retry`: left fold over the
attempts, tracking `(failed_attempts, total_latency, successful_pings)`. -/
def pingLoop : List ProbeResult → ℕ → ℚ → ℕ → ℕ × ℚ × ℕ
  | [], failed, total, succ => (failed, total, succ)
  | a :: rest, failed, total, succ =>
    if a.success then pingLoop rest failed (total + a.latency) (succ + 1)
    else pingLoop rest (failed + 1) total succ

/-- `PingService.ping_with_retry` over a given sequence of per-attempt
backend outcomes: `(overall_success, average_latency, failed_attempts)`. -/
def ping_with_retry (attempts : List ProbeResult) : Bool × ℚ × ℕ :=
  let (failed, total, succ) := pingLoop attempts 0 0 0
  (decide (0 < succ), if 0 < succ then total / succ else 0, failed)

/-- The latency history currently stored for a target (empty if absent). -/
def histOf (s : PingService) (target : Target) : List ℚ :=
  dictGetD s.ping_history target []

/-- The anomaly counter currently stored for a target (0 if absent,
matching `defaultdict(int)`). -/
def counterOf (s : PingService) (target : Target) : ℕ :=
  dictGetD s.anomaly_counters target 0

/-- The anomaly threshold for a target derived from its current history. -/
def thresholdOf (s : PingService) (target : Target) : ℚ :=
  mean (histOf s target) * (1 + s.anomaly_threshold / 100)

/-- An alert event sent to the `DiscordService` sink. -/
inductive Alert where
  | anomaly (target : Target) (target_type : String)
      (current_latency avg_latency : ℚ) (consecutive_count : ℕ)
  | recovered (target : Target) (target_type : String) (latency : ℚ)
  | down (target : Target) (target_type : String) (failed_attempts : ℕ)
  | critical (failed_count total_count : ℕ) (failure_rate : ℚ)
deriving DecidableEq

/-- State of `MonitorService` (`src/monitor_service.py`): configuration,
the owned `PingService`, the per-target down flags (`failed_targets`,
a `defaultdict(bool)`) and the latest-latency map. -/
structure MonitorService where
  ping_targets : List Target
  retry_attempts : ℕ
  anomaly_count : ℕ
  failure_percentage : ℚ
  ping_service : PingService
  failed_targets : List (Target × Bool)
  latest_latency : List (Target × ℚ)
deriving DecidableEq

/-- The down flag currently stored for a target (false if absent). -/
def downFlag (m : MonitorService) (target : Target) : Bool :=
  dictGetD m.failed_targets target false

/-- One iteration of the `MonitorService.monitor_target` loop body, given
the backend outcomes of this cycle's probe attempts.  Returns the updated
state and the alerts emitted during the cycle, in emission order. -/
def monitor_cycle (m : MonitorService) (target : Target) (target_type : String)
    (attempts : List ProbeResult) : MonitorService × List Alert :=
  let (success, latency, failures) := ping_with_retry attempts
  if success then
    let m1 : MonitorService :=
      { m with ping_service := add_to_history m.ping_service target latency,
               latest_latency := dictSet m.latest_latency target latency }
    let ((is_anomaly, avg_latency), ps) := check_anomaly m1.ping_service target latency
    let m2 : MonitorService := { m1 with ping_service := ps }
    let alerts :=
      if is_anomaly then
        [Alert.anomaly target target_type latency avg_latency m2.anomaly_count]
      else []
    let (wasFailed, ft) := ddGet m2.failed_targets false target
    let m3 : MonitorService := { m2 with failed_targets := ft }
    if wasFailed then
      ({ m3 with failed_targets := dictSet m3.failed_targets target false },
        alerts ++ [Alert.recovered target target_type latency])
    else
      (m3, alerts)
  else
    let (wasFailed, ft) := ddGet m.failed_targets false target
    let m1 : MonitorService := { m with failed_targets := ft }
    if wasFailed then
      (m1, [])
    else
      ({ m1 with failed_targets := dictSet m1.failed_targets target true },
        [Alert.down target target_type failures])

/-- A run of consecutive monitor cycles for one target, collecting all
emitted alerts in order. -/
def run_cycles (m : MonitorService) (target : Target) (target_type : String) :
    List (List ProbeResult) → MonitorService × List Alert
  | [] => (m, [])
  | c :: rest =>
    let (m1, alerts) := monitor_cycle m target target_type c
    let (m2, more) := run_cycles m1 target target_type rest
    (m2, alerts ++ more)

/-- Number of down alerts in a list of alerts. -/
def countDown (alerts : List Alert) : ℕ :=
  (alerts.filter (fun a => match a with | Alert.down _ _ _ => true | _ => false)).length

/-- Whether a list of alerts contains a down alert. -/
def hasDown (alerts : List Alert) : Bool :=
  alerts.any (fun a => match a with | Alert.down _ _ _ => true | _ => false)

/-- Whether a list of alerts contains a recovered alert. -/
def hasRecovered (alerts : List Alert) : Bool :=
  alerts.any (fun a => match a with | Alert.recovered _ _ _ => true | _ => false)

/-- Number of critical alerts in a list of alerts. -/
def countCritical (alerts : List Alert) : ℕ :=
  (alerts.filter (fun a => match a with | Alert.critical _ _ _ => true | _ => false)).length

/-- Number of anomaly alerts in a list of alerts. -/
def countAnomaly (alerts : List Alert) : ℕ :=
  (alerts.filter (fun a => match a with | Alert.anomaly _ _ _ _ _ => true | _ => false)).length

/-- `failed_count` of `MonitorService.check_overall_health`: the number of
true values among `failed_targets.values()`. -/
def failedCount (m : MonitorService) : ℕ :=
  (m.failed_targets.filter (fun p => p.2)).length

/-- `failure_rate` of `MonitorService.check_overall_health`. -/
def failureRate (m : MonitorService) : ℚ :=
  (failedCount m : ℚ) / (m.ping_targets.length : ℚ) * 100

/-- One iteration of the `MonitorService.check_overall_health` loop body,
over the current monitor state and the `alert_sent` flag.  Returns the new
`alert_sent` flag and the alerts emitted. -/
def health_step (m : MonitorService) (alert_sent : Bool) : Bool × List Alert :=
  if m.ping_targets.length = 0 then
    (alert_sent, [])
  else
    if m.failure_percentage ≤ failureRate m then
      if !alert_sent then
        (true, [Alert.critical (failedCount m) m.ping_targets.length (failureRate m)])
      else
        (alert_sent, [])
    else
      (false, [])

/-- A run of fleet-health iterations; between iterations the monitor state
may have been changed by the target monitors, so each iteration is given
its own observed state. -/
def health_run : List MonitorService → Bool → Bool × List Alert
  | [], alert_sent => (alert_sent, [])
  | m :: rest, alert_sent =>
    let (b1, alerts) := health_step m alert_sent
    let (b2, more) := health_run rest b1
    (b2, alerts ++ more)

/-- One per-target entry of `MonitorService.get_latency_statistics`. -/
structure TargetInfo where
  target : Target
  status : String
  current_ms : ℚ
  avg_ms : ℚ
deriving DecidableEq

/-- The dictionary returned by `MonitorService.get_latency_statistics`. -/
structure Stats where
  targets : List TargetInfo
  online_count : ℕ
  total_count : ℕ
deriving DecidableEq

/-- The target-collection loop of `get_latency_statistics`, threading the
monitor state through the `get_average_latency` calls. -/
def statsLoop : MonitorService → List Target → List TargetInfo × ℕ × MonitorService
  | m, [] => ([], 0, m)
  | m, t :: rest =>
    let status := if dictGetD m.failed_targets t false then "offline" else "online"
    let current := dictGetD m.latest_latency t 0
    let (avg, ps) := get_average_latency m.ping_service t
    let m1 : MonitorService := { m with ping_service := ps }
    let (infos, oc, m2) := statsLoop m1 rest
    (⟨t, status, current, avg⟩ :: infos,
      (if status = "online" then 1 else 0) + oc, m2)

/-- `MonitorService.get_latency_statistics`: the statistics dictionary and
the monitor state after the call. -/
def get_latency_statistics (m : MonitorService) : Stats × MonitorService :=
  let (infos, oc, m1) := statsLoop m m.ping_targets
  (⟨infos, oc, m.ping_targets.length⟩, m1)

/-! ### Basic association-list lemmas -/

theorem dictGet?_dictSet (d : List (Target × α)) (k k' : Target) (v : α) :
    dictGet? (dictSet d k v) k' = if k' = k then some v else dictGet? d k' := by
  induction d with
  | nil =>
    by_cases h : k' = k
    · simp [dictSet, dictGet?, h]
    · simp only [dictSet, dictGet?, if_neg h]
      exact if_neg (fun hh => h hh.symm)
  | cons p rest ih =>
    by_cases hp : p.1 = k
    · by_cases h : k' = k
      · simp [dictSet, dictGet?, hp, h]
      · have hk : ¬ k = k' := fun hh => h hh.symm
        simp [dictSet, dictGet?, hp, h, hk]
    · simp only [dictSet, if_neg hp]
      by_cases hq : p.1 = k'
      · have hne : ¬ k' = k := fun h => hp (hq.trans h)
        simp [dictGet?, hq, hne]
      · simp [dictGet?, hq, ih]

theorem dictGet?_append_single (d : List (Target × α)) (k k' : Target) (v : α) :
    dictGet? (d ++ [(k, v)]) k' =
      match dictGet? d k' with
      | some w => some w
      | none => if k = k' then some v else none := by
  induction d with
  | nil => simp [dictGet?]
  | cons p rest ih =>
    by_cases hp : p.1 = k' <;> simp [dictGet?, hp, ih]

theorem ddGet_fst (d : List (Target × α)) (dflt : α) (k : Target) :
    (ddGet d dflt k).1 = (dictGet? d k).getD dflt := by
  cases h : dictGet? d k <;> simp [ddGet, h]

theorem dictGet?_ddGet_snd (d : List (Target × α)) (dflt : α) (k k' : Target) :
    dictGet? (ddGet d dflt k).2 k' =
      if k' = k then some ((dictGet? d k).getD dflt) else dictGet? d k' := by
  cases h : dictGet? d k with
  | some v =>
    by_cases hk : k' = k <;> simp [ddGet, h, hk]
  | none =>
    by_cases hk : k' = k
    · subst hk
      simp [ddGet, h, dictGet?_append_single]
    · simp only [ddGet, h, dictGet?_append_single, if_neg hk]
      cases hg : dictGet? d k' with
      | some w => simp
      | none => simp [show ¬ k = k' from fun hh => hk hh.symm]

theorem dictGetD_dictSet_self (d : List (Target × α)) (k : Target) (v dflt : α) :
    dictGetD (dictSet d k v) k dflt = v := by
  simp [dictGetD, dictGet?_dictSet]

theorem dictGetD_dictSet_ne (d : List (Target × α)) (k k' : Target) (v dflt : α)
    (h : k' ≠ k) : dictGetD (dictSet d k v) k' dflt = dictGetD d k' dflt := by
  simp [dictGetD, dictGet?_dictSet, h]

theorem dictGetD_ddGet_snd (d : List (Target × α)) (dflt : α) (k k' : Target) :
    dictGetD (ddGet d dflt k).2 k' dflt = dictGetD d k' dflt := by
  by_cases h : k' = k
  · subst h
    simp [dictGetD, dictGet?_ddGet_snd]
  · simp [dictGetD, dictGet?_ddGet_snd, h]

/-! ### Characterization of `check_anomaly` -/

theorem ddGet_hist_fst (s : PingService) (t : Target) :
    (ddGet s.ping_history [] t).1 = histOf s t :=
  ddGet_fst _ _ _

theorem ddGet_counter_fst (s : PingService) (t : Target) :
    (ddGet s.anomaly_counters 0 t).1 = counterOf s t :=
  ddGet_fst _ _ _

/-- `check_anomaly` with the pair destructuring replaced by projections
(definitional by structure eta). -/
theorem check_anomaly_proj (s : PingService) (t : Target) (cur : ℚ) :
    check_anomaly s t cur =
      if ((ddGet s.ping_history [] t).1).length < 10 then
        ((false, 0), { s with ping_history := (ddGet s.ping_history [] t).2 })
      else
        if mean (ddGet s.ping_history [] t).1 * (1 + s.anomaly_threshold / 100) < cur then
          if s.anomaly_count ≤ (ddGet s.anomaly_counters 0 t).1 + 1 then
            ((true, mean (ddGet s.ping_history [] t).1),
              { s with ping_history := (ddGet s.ping_history [] t).2,
                       anomaly_counters :=
                         dictSet (dictSet (ddGet s.anomaly_counters 0 t).2 t
                           ((ddGet s.anomaly_counters 0 t).1 + 1)) t 0 })
          else
            ((false, mean (ddGet s.ping_history [] t).1),
              { s with ping_history := (ddGet s.ping_history [] t).2,
                       anomaly_counters :=
                         dictSet (ddGet s.anomaly_counters 0 t).2 t
                           ((ddGet s.anomaly_counters 0 t).1 + 1) })
        else
          ((false, mean (ddGet s.ping_history [] t).1),
            { s with ping_history := (ddGet s.ping_history [] t).2,
                     anomaly_counters := dictSet s.anomaly_counters t 0 }) :=
  rfl

theorem check_anomaly_anomaly_count (s : PingService) (t : Target) (cur : ℚ) :
    (check_anomaly s t cur).2.anomaly_count = s.anomaly_count := by
  rw [check_anomaly_proj]
  split_ifs <;> rfl

theorem check_anomaly_anomaly_threshold (s : PingService) (t : Target) (cur : ℚ) :
    (check_anomaly s t cur).2.anomaly_threshold = s.anomaly_threshold := by
  rw [check_anomaly_proj]
  split_ifs <;> rfl

theorem check_anomaly_histOf (s : PingService) (t : Target) (cur : ℚ) (t' : Target) :
    histOf (check_anomaly s t cur).2 t' = histOf s t' := by
  rw [check_anomaly_proj]
  split_ifs <;>
    exact dictGetD_ddGet_snd s.ping_history [] t t'

theorem check_anomaly_counterOf_ne (s : PingService) (t : Target) (cur : ℚ)
    (t' : Target) (h : t' ≠ t) :
    counterOf (check_anomaly s t cur).2 t' = counterOf s t' := by
  rw [check_anomaly_proj]
  split_ifs <;>
    simp only [counterOf] <;>
    simp [dictGetD_dictSet_ne _ _ _ _ _ h, dictGetD_ddGet_snd]

theorem check_anomaly_cold (s : PingService) (t : Target) (cur : ℚ)
    (h : (histOf s t).length < 10) :
    (check_anomaly s t cur).1 = (false, 0) ∧
    (check_anomaly s t cur).2.anomaly_counters = s.anomaly_counters := by
  rw [check_anomaly_proj, ddGet_hist_fst, if_pos h]
  exact ⟨rfl, rfl⟩

theorem check_anomaly_over (s : PingService) (t : Target) (cur : ℚ)
    (h10 : 10 ≤ (histOf s t).length) (hthr : thresholdOf s t < cur) :
    (check_anomaly s t cur).1
        = (decide (s.anomaly_count ≤ counterOf s t + 1), mean (histOf s t)) ∧
    counterOf (check_anomaly s t cur).2 t
        = if s.anomaly_count ≤ counterOf s t + 1 then 0 else counterOf s t + 1 := by
  rw [check_anomaly_proj, ddGet_hist_fst, ddGet_counter_fst,
    if_neg (by omega : ¬ (histOf s t).length < 10),
    if_pos (show mean (histOf s t) * (1 + s.anomaly_threshold / 100) < cur from hthr)]
  by_cases hc : s.anomaly_count ≤ counterOf s t + 1
  · rw [if_pos hc, if_pos hc]
    refine ⟨by simp [hc], ?_⟩
    simp only [counterOf]
    exact dictGetD_dictSet_self _ _ _ _
  · rw [if_neg hc, if_neg hc]
    refine ⟨by simp [hc], ?_⟩
    simp only [counterOf]
    exact dictGetD_dictSet_self _ _ _ _

theorem check_anomaly_under (s : PingService) (t : Target) (cur : ℚ)
    (h10 : 10 ≤ (histOf s t).length) (hthr : cur ≤ thresholdOf s t) :
    (check_anomaly s t cur).1 = (false, mean (histOf s t)) ∧
    counterOf (check_anomaly s t cur).2 t = 0 := by
  rw [check_anomaly_proj, ddGet_hist_fst,
    if_neg (by omega : ¬ (histOf s t).length < 10),
    if_neg (not_lt.mpr
      (show cur ≤ mean (histOf s t) * (1 + s.anomaly_threshold / 100) from hthr))]
  refine ⟨rfl, ?_⟩
  simp only [counterOf]
  exact dictGetD_dictSet_self _ _ _ _

theorem counterOf_reset (s : PingService) (t t' : Target) :
    counterOf (reset_anomaly_counter s t) t'
      = if t' = t then 0 else counterOf s t' := by
  by_cases h : t' = t
  · subst h
    simp only [reset_anomaly_counter, counterOf, if_pos rfl]
    exact dictGetD_dictSet_self _ _ _ _
  · simp only [reset_anomaly_counter, counterOf, if_neg h]
    exact dictGetD_dictSet_ne _ _ _ _ _ h

theorem add_to_history_counters (s : PingService) (t : Target) (v : ℚ) :
    (add_to_history s t v).anomaly_counters = s.anomaly_counters := rfl

theorem add_to_history_anomaly_count (s : PingService) (t : Target) (v : ℚ) :
    (add_to_history s t v).anomaly_count = s.anomaly_count := rfl

theorem add_to_history_anomaly_threshold (s : PingService) (t : Target) (v : ℚ) :
    (add_to_history s t v).anomaly_threshold = s.anomaly_threshold := rfl

/-- Recording a full sequence of samples, as the monitor loop does over time. -/
def addAll (s : PingService) (t : Target) (vs : List ℚ) : PingService :=
  vs.foldl (fun s' v => add_to_history s' t v) s

theorem addAll_counters (t : Target) (vs : List ℚ) :
    ∀ s : PingService, (addAll s t vs).anomaly_counters = s.anomaly_counters := by
  induction vs with
  | nil => intro s; rfl
  | cons v rest ih => intro s; exact ih (add_to_history s t v)

theorem addAll_anomaly_count (t : Target) (vs : List ℚ) :
    ∀ s : PingService, (addAll s t vs).anomaly_count = s.anomaly_count := by
  induction vs with
  | nil => intro s; rfl
  | cons v rest ih => intro s; exact ih (add_to_history s t v)

theorem addAll_counterOf (t t' : Target) (vs : List ℚ) (s : PingService) :
    counterOf (addAll s t vs) t' = counterOf s t' := by
  simp only [counterOf, addAll_counters]

/-! ### Consecutive anomaly evaluations (hysteresis runs) -/

/-- One monitoring step seen by the anomaly detector: first record some
samples (`step.1`), then evaluate the current latency `step.2`. -/
def anomaly_step (s : PingService) (t : Target) (step : List ℚ × ℚ) :
    (Bool × ℚ) × PingService :=
  check_anomaly (addAll s t step.1) t step.2

/-- A run of anomaly evaluations, collecting the `is_anomaly` results. -/
def anomaly_run : PingService → Target → List (List ℚ × ℚ) → List Bool × PingService
  | s, _, [] => ([], s)
  | s, t, step :: rest =>
    let r := anomaly_step s t step
    let (bs, s') := anomaly_run r.2 t rest
    (r.1.1 :: bs, s')

/-- Every evaluation in the run sees at least 10 history samples and a
current latency strictly above that call's threshold. -/
def QualifyingRun : PingService → Target → List (List ℚ × ℚ) → Prop
  | _, _, [] => True
  | s, t, step :: rest =>
    (10 ≤ (histOf (addAll s t step.1) t).length ∧
      thresholdOf (addAll s t step.1) t < step.2) ∧
    QualifyingRun (anomaly_step s t step).2 t rest

theorem range_map_decide_succ (n : ℕ) (h : 1 ≤ n) :
    (List.range (n + 1)).map (fun i => decide (i + 1 = n + 1))
      = false :: (List.range n).map (fun i => decide (i + 1 = n)) := by
  rw [List.range_succ_eq_map]
  simp only [List.map_cons, List.map_map]
  refine congrArg₂ _ ?_ ?_
  · simp only [decide_eq_false_iff_not]
    omega
  · refine List.map_congr_left ?_
    intro i _
    simp only [Function.comp_apply, decide_eq_decide]
    omega

theorem anomaly_run_qualifying (t : Target) :
    ∀ (steps : List (List ℚ × ℚ)) (s : PingService), QualifyingRun s t steps →
      1 ≤ steps.length → steps.length + counterOf s t = s.anomaly_count →
      (anomaly_run s t steps).1
          = (List.range steps.length).map (fun i => decide (i + 1 = steps.length)) ∧
      counterOf (anomaly_run s t steps).2 t = 0 := by
  intro steps
  induction steps with
  | nil =>
    intro s _ h1 _
    exact absurd h1 (by simp)
  | cons step rest ih =>
    intro s hq _ hlen
    obtain ⟨⟨h10, hthr⟩, hqrest⟩ := hq
    have hcnt : counterOf (addAll s t step.1) t = counterOf s t := addAll_counterOf t t _ s
    have hN : (addAll s t step.1).anomaly_count = s.anomaly_count := addAll_anomaly_count t _ s
    have hover := check_anomaly_over (addAll s t step.1) t step.2 h10 hthr
    cases rest with
    | nil =>
      simp only [List.length_cons, List.length_nil] at hlen
      have hfire : (addAll s t step.1).anomaly_count ≤ counterOf (addAll s t step.1) t + 1 := by
        omega
      refine ⟨?_, ?_⟩
      · simp only [anomaly_run, anomaly_step]
        rw [show (check_anomaly (addAll s t step.1) t step.2).1
            = (decide ((addAll s t step.1).anomaly_count
                ≤ counterOf (addAll s t step.1) t + 1), mean (histOf (addAll s t step.1) t))
          from hover.1]
        simp [hfire, List.range_succ]
      · simp only [anomaly_run, anomaly_step]
        rw [show counterOf (check_anomaly (addAll s t step.1) t step.2).2 t
            = if (addAll s t step.1).anomaly_count ≤ counterOf (addAll s t step.1) t + 1
              then 0 else counterOf (addAll s t step.1) t + 1 from hover.2]
        simp [hfire]
    | cons step2 rest2 =>
      simp only [List.length_cons] at hlen
      have hnofire : ¬ (addAll s t step.1).anomaly_count
          ≤ counterOf (addAll s t step.1) t + 1 := by
        omega
      have hcnt2 : counterOf (anomaly_step s t step).2 t = counterOf s t + 1 := by
        simp only [anomaly_step]
        rw [hover.2, if_neg hnofire, hcnt]
      have hN2 : (anomaly_step s t step).2.anomaly_count = s.anomaly_count := by
        simp only [anomaly_step]
        rw [check_anomaly_anomaly_count, hN]
      have ihres := ih (anomaly_step s t step).2 hqrest (by simp)
        (by simp only [List.length_cons] at hlen ⊢; omega)
      have hn1 : 1 ≤ (step2 :: rest2).length := by simp
      refine ⟨?_, ?_⟩
      · have hb : (anomaly_step s t step).1.1 = false := by
          simp only [anomaly_step]
          rw [show (check_anomaly (addAll s t step.1) t step.2).1
              = (decide ((addAll s t step.1).anomaly_count
                  ≤ counterOf (addAll s t step.1) t + 1), mean (histOf (addAll s t step.1) t))
            from hover.1]
          simp [hnofire]
        show ((anomaly_step s t step).1.1 ::
            (anomaly_run (anomaly_step s t step).2 t (step2 :: rest2)).1)
          = (List.range ((step2 :: rest2).length + 1)).map
              (fun i => decide (i + 1 = (step2 :: rest2).length + 1))
        rw [range_map_decide_succ _ hn1, hb, ihres.1]
      · show counterOf (anomaly_run (anomaly_step s t step).2 t (step2 :: rest2)).2 t = 0
        exact ihres.2

/-- The invariant of claim C10: every stored consecutive-anomaly counter is
at most `anomaly_count - 1`. -/
def counterInvariant (s : PingService) : Prop :=
  ∀ t, counterOf s t ≤ s.anomaly_count - 1

/-- A service with ten 20 ms samples for target "a" (threshold 30 %, count 5). -/
def baseService : PingService :=
  { anomaly_threshold := 30, anomaly_count := 5,
    ping_history := [("a", List.replicate 10 20)], anomaly_counters := [] }

/-- Like `baseService` but with `anomaly_count = 2`. -/
def pairService : PingService :=
  { anomaly_threshold := 30, anomaly_count := 2,
    ping_history := [("a", List.replicate 10 20)], anomaly_counters := [] }

/-- A service with an empty history and counter 4 stored for "a". -/
def counterService : PingService :=
  { anomaly_threshold := 30, anomaly_count := 5,
    ping_history := [("a", List.replicate 10 20)], anomaly_counters := [("a", 4)] }

/-- C5: with fewer than 10 samples in the target's history, `check_anomaly`
returns `(false, 0.0)` and leaves the anomaly counters untouched, for every
current latency and every counter state. -/
theorem anomaly_cold_start (s : PingService) (t : Target) (cur : ℚ)
    (h : (histOf s t).length < 10) :
    (check_anomaly s t cur).1 = (false, 0) ∧
    (check_anomaly s t cur).2.anomaly_counters = s.anomaly_counters :=
  check_anomaly_cold s t cur h

/-- A service with an empty history and counter 3 stored for "a". -/
def coldService : PingService :=
  { anomaly_threshold := 30, anomaly_count := 5,
    ping_history := [], anomaly_counters := [("a", 3)] }

theorem anomaly_cold_start_witness :
    (histOf coldService "a").length < 10 ∧
    ((check_anomaly coldService "a" 50).1 = (false, 0) ∧
      (check_anomaly coldService "a" 50).2.anomaly_counters
        = coldService.anomaly_counters) :=
  ⟨by decide, anomaly_cold_start coldService "a" 50 (by decide)⟩

/-- C4: with at least 10 samples, a current latency strictly above
`mean * (1 + threshold/100)` increments the target's counter by 1 (or fires
and resets it to 0), and a current latency at or below that bound
unconditionally resets the counter and reports no anomaly. -/
theorem anomaly_counter_step (s : PingService) (t : Target) (cur : ℚ)
    (h10 : 10 ≤ (histOf s t).length) :
    (mean (histOf s t) * (1 + s.anomaly_threshold / 100) < cur →
      counterOf (check_anomaly s t cur).2 t
        = if s.anomaly_count ≤ counterOf s t + 1 then 0 else counterOf s t + 1) ∧
    (cur ≤ mean (histOf s t) * (1 + s.anomaly_threshold / 100) →
      counterOf (check_anomaly s t cur).2 t = 0 ∧
      (check_anomaly s t cur).1.1 = false) := by
  constructor
  · intro h
    exact (check_anomaly_over s t cur h10 h).2
  · intro h
    have hu := check_anomaly_under s t cur h10 h
    exact ⟨hu.2, by rw [hu.1]⟩

theorem anomaly_counter_step_witness :
    10 ≤ (histOf baseService "a").length ∧
    ((mean (histOf baseService "a") * (1 + baseService.anomaly_threshold / 100) < 40 →
      counterOf (check_anomaly baseService "a" 40).2 "a"
        = if baseService.anomaly_count ≤ counterOf baseService "a" + 1 then 0
          else counterOf baseService "a" + 1) ∧
    (40 ≤ mean (histOf baseService "a") * (1 + baseService.anomaly_threshold / 100) →
      counterOf (check_anomaly baseService "a" 40).2 "a" = 0 ∧
      (check_anomaly baseService "a" 40).1.1 = false)) :=
  ⟨by decide, anomaly_counter_step baseService "a" 40 (by decide)⟩

/-- C3: starting from counter 0, over a run of `anomaly_count` consecutive
qualifying evaluations (each with at least 10 samples and a current latency
above that call's threshold), only the last evaluation reports an anomaly,
and the stored counter is 0 immediately afterwards. -/
theorem anomaly_fires_on_nth (s : PingService) (t : Target)
    (steps : List (List ℚ × ℚ))
    (hN : 1 ≤ s.anomaly_count) (hc : counterOf s t = 0)
    (hlen : steps.length = s.anomaly_count) (hq : QualifyingRun s t steps) :
    (anomaly_run s t steps).1
        = (List.range steps.length).map (fun i => decide (i + 1 = s.anomaly_count)) ∧
    counterOf (anomaly_run s t steps).2 t = 0 := by
  have h := anomaly_run_qualifying t steps s hq (by omega) (by omega)
  rw [hlen] at h
  rw [hlen]
  exact h

theorem anomaly_fires_on_nth_witness :
    1 ≤ pairService.anomaly_count ∧ counterOf pairService "a" = 0 ∧
    ([(([] : List ℚ), (40 : ℚ)), ([], 40)]).length = pairService.anomaly_count ∧
    QualifyingRun pairService "a" [(([] : List ℚ), (40 : ℚ)), ([], 40)] ∧
    ((anomaly_run pairService "a" [(([] : List ℚ), (40 : ℚ)), ([], 40)]).1
        = (List.range ([(([] : List ℚ), (40 : ℚ)), ([], 40)]).length).map
            (fun i => decide (i + 1 = pairService.anomaly_count)) ∧
      counterOf (anomaly_run pairService "a" [(([] : List ℚ), (40 : ℚ)), ([], 40)]).2 "a"
        = 0) := by
  have hq : QualifyingRun pairService "a" [(([] : List ℚ), (40 : ℚ)), ([], 40)] := by
    norm_num [QualifyingRun, anomaly_step, addAll, check_anomaly, ddGet, dictGet?,
      dictSet, histOf, counterOf, dictGetD, thresholdOf, mean, pairService,
      List.replicate, List.foldl]
  exact ⟨by decide, by decide, by decide, hq,
    anomaly_fires_on_nth pairService "a" _ (by decide) (by decide) (by decide) hq⟩

/-- C10 (implicit invariant): if every stored counter is at most
`anomaly_count - 1`, it stays so after any `check_anomaly` call and after any
`reset_anomaly_counter`; the stored counter never reaches `anomaly_count`
between calls. -/
theorem anomaly_counter_invariant (s : PingService) (t : Target) (cur : ℚ)
    (hN : 1 ≤ s.anomaly_count) (hinv : counterInvariant s) :
    counterInvariant (check_anomaly s t cur).2 ∧
    counterInvariant (reset_anomaly_counter s t) := by
  constructor
  · intro t'
    rw [check_anomaly_anomaly_count]
    by_cases ht : t' = t
    · subst ht
      by_cases h10 : (histOf s t').length < 10
      · have hc := (check_anomaly_cold s t' cur h10).2
        have heq : counterOf (check_anomaly s t' cur).2 t' = counterOf s t' := by
          simp only [counterOf, hc]
        rw [heq]
        exact hinv t'
      · have hmem := hinv t'
        by_cases hthr : thresholdOf s t' < cur
        · have h := (check_anomaly_over s t' cur (by omega) hthr).2
          rw [h]
          by_cases hfire : s.anomaly_count ≤ counterOf s t' + 1
          · rw [if_pos hfire]
            omega
          · rw [if_neg hfire]
            omega
        · have h := (check_anomaly_under s t' cur (by omega) (le_of_not_lt hthr)).2
          rw [h]
          omega
    · rw [check_anomaly_counterOf_ne s t cur t' ht]
      exact hinv t'
  · intro t'
    rw [show (reset_anomaly_counter s t).anomaly_count = s.anomaly_count from rfl,
      counterOf_reset]
    by_cases ht : t' = t
    · rw [if_pos ht]
      omega
    · rw [if_neg ht]
      exact hinv t'

theorem anomaly_counter_invariant_witness :
    1 ≤ counterService.anomaly_count ∧ counterInvariant counterService ∧
    (counterInvariant (check_anomaly counterService "a" 40).2 ∧
      counterInvariant (reset_anomaly_counter counterService "a")) := by
  have hinv : counterInvariant counterService := by
    intro t'
    by_cases h : t' = "a"
    · subst h
      decide
    · simp only [counterService, counterInvariant, counterOf, dictGetD, dictGet?,
        if_neg (fun hh : "a" = t' => h hh.symm)]
      decide
  exact ⟨by decide, hinv, anomaly_counter_invariant counterService "a" 40 (by decide) hinv⟩

/-! ### Prober: `ping_with_retry` -/

theorem pingLoop_eq (attempts : List ProbeResult) :
    ∀ (f : ℕ) (tot : ℚ) (sc : ℕ),
      pingLoop attempts f tot sc =
        (f + (attempts.filter (fun a => !a.success)).length,
         tot + ((attempts.filter (fun a => a.success)).map ProbeResult.latency).sum,
         sc + (attempts.filter (fun a => a.success)).length) := by
  induction attempts with
  | nil =>
    intro f tot sc
    simp [pingLoop]
  | cons a rest ih =>
    intro f tot sc
    by_cases h : a.success
    · simp only [pingLoop, if_pos h, ih, List.filter_cons, h, Bool.not_true,
        Bool.false_eq_true, if_false, if_true, List.length_cons, List.map_cons,
        List.sum_cons]
      refine congrArg₂ _ rfl ?_
      refine congrArg₂ _ ?_ ?_
      · ring
      · omega
    · have h' : a.success = false := by simpa using h
      simp only [pingLoop, h', Bool.false_eq_true, if_false, ih, List.filter_cons,
        Bool.not_false, if_true, List.length_cons]
      refine congrArg₂ _ ?_ rfl
      omega

/-- C6: `ping_with_retry` succeeds iff some attempt succeeded, averages the
latencies of the successful attempts only (0 when none succeeded), and counts
the failed attempts, which never exceed the number of attempts. -/
theorem ping_with_retry_spec (attempts : List ProbeResult) (h : 1 ≤ attempts.length) :
    ((ping_with_retry attempts).1 = true ↔ ∃ a ∈ attempts, a.success = true) ∧
    (ping_with_retry attempts).2.1
      = (if (attempts.filter (fun a => a.success)).length = 0 then 0
         else mean ((attempts.filter (fun a => a.success)).map ProbeResult.latency)) ∧
    (ping_with_retry attempts).2.2 = (attempts.filter (fun a => !a.success)).length ∧
    (ping_with_retry attempts).2.2 ≤ attempts.length := by
  have hl := pingLoop_eq attempts 0 0 0
  refine ⟨?_, ?_, ?_, ?_⟩
  · show (decide (0 < (pingLoop attempts 0 0 0).2.2) = true) ↔ _
    rw [hl]
    simp only [zero_add, decide_eq_true_eq]
    rw [List.length_pos]
    constructor
    · intro hne
      rcases List.exists_mem_of_ne_nil _ hne with ⟨a, ha⟩
      have := List.mem_filter.mp ha
      exact ⟨a, this.1, by simpa using this.2⟩
    · rintro ⟨a, ha, hs⟩
      intro hnil
      have : a ∈ attempts.filter (fun a => a.success) :=
        List.mem_filter.mpr ⟨ha, by simpa using hs⟩
      rw [hnil] at this
      simp at this
  · show (if 0 < (pingLoop attempts 0 0 0).2.2 then
        (pingLoop attempts 0 0 0).2.1 / ((pingLoop attempts 0 0 0).2.2 : ℚ)
      else 0) = _
    rw [hl]
    simp only [zero_add]
    by_cases hz : (attempts.filter (fun a => a.success)).length = 0
    · simp [hz]
    · rw [if_pos (by omega), if_neg hz, mean, List.length_map]
  · show (pingLoop attempts 0 0 0).1 = _
    rw [hl]
    simp
  · show (pingLoop attempts 0 0 0).1 ≤ _
    rw [hl]
    simpa using List.length_filter_le _ attempts

theorem ping_with_retry_spec_witness :
    1 ≤ ([⟨true, 10⟩, ⟨false, 0⟩, ⟨true, 20⟩] : List ProbeResult).length ∧
    (((ping_with_retry [⟨true, 10⟩, ⟨false, 0⟩, ⟨true, 20⟩]).1 = true ↔
        ∃ a ∈ ([⟨true, 10⟩, ⟨false, 0⟩, ⟨true, 20⟩] : List ProbeResult), a.success = true) ∧
      (ping_with_retry [⟨true, 10⟩, ⟨false, 0⟩, ⟨true, 20⟩]).2.1
        = (if (([⟨true, 10⟩, ⟨false, 0⟩, ⟨true, 20⟩] : List ProbeResult).filter
              (fun a => a.success)).length = 0 then 0
           else mean ((([⟨true, 10⟩, ⟨false, 0⟩, ⟨true, 20⟩] : List ProbeResult).filter
              (fun a => a.success)).map ProbeResult.latency)) ∧
      (ping_with_retry [⟨true, 10⟩, ⟨false, 0⟩, ⟨true, 20⟩]).2.2
        = (([⟨true, 10⟩, ⟨false, 0⟩, ⟨true, 20⟩] : List ProbeResult).filter
            (fun a => !a.success)).length ∧
      (ping_with_retry [⟨true, 10⟩, ⟨false, 0⟩, ⟨true, 20⟩]).2.2
        ≤ ([⟨true, 10⟩, ⟨false, 0⟩, ⟨true, 20⟩] : List ProbeResult).length) :=
  ⟨by decide, ping_with_retry_spec [⟨true, 10⟩, ⟨false, 0⟩, ⟨true, 20⟩] (by decide)⟩

/-! ### LatencyHistory: bounded FIFO window -/

theorem dequeAppend_eq_drop (xs : List ℚ) (v : ℚ) :
    dequeAppend 100 xs v = (xs ++ [v]).drop ((xs ++ [v]).length - 100) := by
  simp only [dequeAppend]
  split_ifs with h1
  · rw [Nat.sub_eq_zero_of_le h1, List.drop_zero]
  · rfl

theorem dequeAppend_length_le (xs : List ℚ) (v : ℚ) (h : xs.length ≤ 100) :
    (dequeAppend 100 xs v).length ≤ 100 := by
  simp only [dequeAppend]
  split_ifs with h1
  · exact h1
  · simp only [List.length_drop]
    omega

theorem foldl_dequeAppend (vs : List ℚ) :
    ∀ xs : List ℚ, xs.length ≤ 100 →
      vs.foldl (dequeAppend 100) xs = (xs ++ vs).drop ((xs ++ vs).length - 100) := by
  induction vs with
  | nil =>
    intro xs h
    simp [Nat.sub_eq_zero_of_le h]
  | cons v rest ih =>
    intro xs h
    rw [List.foldl_cons, ih _ (dequeAppend_length_le xs v h), dequeAppend_eq_drop]
    have hd : (xs ++ [v]).length - 100 ≤ (xs ++ [v]).length := Nat.sub_le _ _
    rw [← List.drop_append_of_le_length hd]
    rw [List.drop_drop]
    rw [show (xs ++ [v]) ++ rest = xs ++ v :: rest by simp]
    refine congrArg₂ _ ?_ rfl
    simp only [List.length_drop, List.length_append, List.length_cons, List.length_nil]
    omega

theorem histOf_add_to_history_self (s : PingService) (t : Target) (v : ℚ) :
    histOf (add_to_history s t v) t = dequeAppend 100 (histOf s t) v := by
  show dictGetD (add_to_history s t v).ping_history t [] = _
  have hrw : (add_to_history s t v).ping_history
      = dictSet (ddGet s.ping_history [] t).2 t
          (dequeAppend 100 (ddGet s.ping_history [] t).1 v) := rfl
  rw [hrw, dictGetD_dictSet_self, ddGet_hist_fst]

theorem histOf_addAll (t : Target) (vs : List ℚ) :
    ∀ s : PingService, histOf (addAll s t vs) t = vs.foldl (dequeAppend 100) (histOf s t) := by
  induction vs with
  | nil =>
    intro s
    rfl
  | cons v rest ih =>
    intro s
    show histOf (addAll (add_to_history s t v) t rest) t = _
    rw [ih (add_to_history s t v), histOf_add_to_history_self, List.foldl_cons]

/-- C7: starting from an empty history, after recording any sequence of
samples the stored history is exactly the (at most) 100 most recently
recorded values in order, and its size never exceeds 100. -/
theorem history_capacity_fifo (s : PingService) (t : Target) (vs : List ℚ)
    (h : histOf s t = []) :
    histOf (addAll s t vs) t = vs.drop (vs.length - 100) ∧
    (histOf (addAll s t vs) t).length ≤ 100 := by
  have h1 : histOf (addAll s t vs) t = vs.drop (vs.length - 100) := by
    rw [histOf_addAll t vs s, h, foldl_dequeAppend vs [] (by simp)]
    simp
  refine ⟨h1, ?_⟩
  rw [h1]
  simp only [List.length_drop]
  omega

/-- A service with nothing recorded yet. -/
def emptyService : PingService :=
  { anomaly_threshold := 30, anomaly_count := 5,
    ping_history := [], anomaly_counters := [] }

theorem history_capacity_fifo_witness :
    histOf emptyService "a" = [] ∧
    (histOf (addAll emptyService "a" [1, 2, 3]) "a"
        = ([1, 2, 3] : List ℚ).drop (([1, 2, 3] : List ℚ).length - 100) ∧
      (histOf (addAll emptyService "a" [1, 2, 3]) "a").length ≤ 100) :=
  ⟨by decide, history_capacity_fifo emptyService "a" [1, 2, 3] (by decide)⟩

/-! ### TargetMonitor: down / recovered transitions -/

theorem ddGet_flag_fst (m : MonitorService) (t : Target) :
    (ddGet m.failed_targets false t).1 = downFlag m t :=
  ddGet_fst _ _ _

theorem countDown_append (l1 l2 : List Alert) :
    countDown (l1 ++ l2) = countDown l1 + countDown l2 := by
  simp [countDown, List.filter_append]

/-- `monitor_cycle` with the destructuring replaced by projections
(definitional by structure eta). -/
theorem monitor_cycle_proj (m : MonitorService) (target : Target) (ttype : String)
    (attempts : List ProbeResult) :
    monitor_cycle m target ttype attempts =
      if (ping_with_retry attempts).1 = true then
        if (ddGet m.failed_targets false target).1 = true then
          ({ m with
              ping_service := (check_anomaly (add_to_history m.ping_service target
                (ping_with_retry attempts).2.1) target (ping_with_retry attempts).2.1).2,
              latest_latency := dictSet m.latest_latency target (ping_with_retry attempts).2.1,
              failed_targets := dictSet (ddGet m.failed_targets false target).2 target false },
            (if (check_anomaly (add_to_history m.ping_service target
                  (ping_with_retry attempts).2.1) target (ping_with_retry attempts).2.1).1.1 = true
              then [Alert.anomaly target ttype (ping_with_retry attempts).2.1
                  (check_anomaly (add_to_history m.ping_service target
                    (ping_with_retry attempts).2.1) target (ping_with_retry attempts).2.1).1.2
                  m.anomaly_count]
              else []) ++ [Alert.recovered target ttype (ping_with_retry attempts).2.1])
        else
          ({ m with
              ping_service := (check_anomaly (add_to_history m.ping_service target
                (ping_with_retry attempts).2.1) target (ping_with_retry attempts).2.1).2,
              latest_latency := dictSet m.latest_latency target (ping_with_retry attempts).2.1,
              failed_targets := (ddGet m.failed_targets false target).2 },
            if (check_anomaly (add_to_history m.ping_service target
                  (ping_with_retry attempts).2.1) target (ping_with_retry attempts).2.1).1.1 = true
              then [Alert.anomaly target ttype (ping_with_retry attempts).2.1
                  (check_anomaly (add_to_history m.ping_service target
                    (ping_with_retry attempts).2.1) target (ping_with_retry attempts).2.1).1.2
                  m.anomaly_count]
              else [])
      else
        if (ddGet m.failed_targets false target).1 = true then
          ({ m with failed_targets := (ddGet m.failed_targets false target).2 }, [])
        else
          ({ m with failed_targets := dictSet (ddGet m.failed_targets false target).2 target true },
            [Alert.down target ttype (ping_with_retry attempts).2.2]) :=
  rfl

theorem monitor_cycle_fail (m : MonitorService) (target : Target) (ttype : String)
    (attempts : List ProbeResult) (hs : (ping_with_retry attempts).1 = false) :
    monitor_cycle m target ttype attempts =
      if downFlag m target = true then
        ({ m with failed_targets := (ddGet m.failed_targets false target).2 }, [])
      else
        ({ m with failed_targets := dictSet (ddGet m.failed_targets false target).2 target true },
          [Alert.down target ttype (ping_with_retry attempts).2.2]) := by
  rw [monitor_cycle_proj, if_neg (by rw [hs]; exact Bool.false_ne_true), ddGet_flag_fst]

theorem monitor_cycle_fail_downFlag (m : MonitorService) (target : Target) (ttype : String)
    (attempts : List ProbeResult) (hs : (ping_with_retry attempts).1 = false) :
    downFlag (monitor_cycle m target ttype attempts).1 target = true := by
  rw [monitor_cycle_fail m target ttype attempts hs]
  by_cases hf : downFlag m target = true
  · rw [if_pos hf]
    show dictGetD (ddGet m.failed_targets false target).2 target false = true
    rw [dictGetD_ddGet_snd]
    exact hf
  · rw [if_neg hf]
    show dictGetD (dictSet (ddGet m.failed_targets false target).2 target true) target false = true
    exact dictGetD_dictSet_self _ _ _ _

theorem monitor_cycle_fail_alerts (m : MonitorService) (target : Target) (ttype : String)
    (attempts : List ProbeResult) (hs : (ping_with_retry attempts).1 = false) :
    (monitor_cycle m target ttype attempts).2 =
      if downFlag m target = true then []
      else [Alert.down target ttype (ping_with_retry attempts).2.2] := by
  rw [monitor_cycle_fail m target ttype attempts hs]
  by_cases hf : downFlag m target = true
  · rw [if_pos hf, if_pos hf]
  · rw [if_neg hf, if_neg hf]

theorem monitor_cycle_succ_alerts (m : MonitorService) (target : Target) (ttype : String)
    (attempts : List ProbeResult) (hs : (ping_with_retry attempts).1 = true) :
    (monitor_cycle m target ttype attempts).2 =
      (if (check_anomaly (add_to_history m.ping_service target
            (ping_with_retry attempts).2.1) target (ping_with_retry attempts).2.1).1.1 = true
        then [Alert.anomaly target ttype (ping_with_retry attempts).2.1
            (check_anomaly (add_to_history m.ping_service target
              (ping_with_retry attempts).2.1) target (ping_with_retry attempts).2.1).1.2
            m.anomaly_count]
        else []) ++
      (if downFlag m target = true
        then [Alert.recovered target ttype (ping_with_retry attempts).2.1]
        else []) := by
  rw [monitor_cycle_proj, if_pos hs, ddGet_flag_fst]
  by_cases hf : downFlag m target = true
  · rw [if_pos hf, if_pos hf]
  · rw [if_neg hf, if_neg hf, List.append_nil]

theorem monitor_cycle_succ_downFlag (m : MonitorService) (target : Target) (ttype : String)
    (attempts : List ProbeResult) (hs : (ping_with_retry attempts).1 = true) :
    downFlag (monitor_cycle m target ttype attempts).1 target = false := by
  rw [monitor_cycle_proj, if_pos hs, ddGet_flag_fst]
  by_cases hf : downFlag m target = true
  · rw [if_pos hf]
    show dictGetD (dictSet (ddGet m.failed_targets false target).2 target false) target false
      = false
    exact dictGetD_dictSet_self _ _ _ _
  · rw [if_neg hf]
    show dictGetD (ddGet m.failed_targets false target).2 target false = false
    rw [dictGetD_ddGet_snd]
    simpa using hf

theorem run_cycles_down_none (target : Target) (ttype : String) :
    ∀ (cycles : List (List ProbeResult)) (m : MonitorService),
      downFlag m target = true →
      (∀ c ∈ cycles, (ping_with_retry c).1 = false) →
      countDown (run_cycles m target ttype cycles).2 = 0 := by
  intro cycles
  induction cycles with
  | nil =>
    intro m _ _
    simp [run_cycles, countDown]
  | cons c rest ih =>
    intro m hflag hall
    have hc : (ping_with_retry c).1 = false := hall c (by simp)
    show countDown ((monitor_cycle m target ttype c).2 ++
      (run_cycles (monitor_cycle m target ttype c).1 target ttype rest).2) = 0
    rw [countDown_append]
    have h1 : countDown (monitor_cycle m target ttype c).2 = 0 := by
      rw [monitor_cycle_fail_alerts m target ttype c hc, if_pos hflag]
      simp [countDown]
    have h2 := ih (monitor_cycle m target ttype c).1
      (monitor_cycle_fail_downFlag m target ttype c hc)
      (fun c' hc' => hall c' (by simp [hc']))
    omega

/-- C1: on a failed cycle a down alert is emitted iff the target is not yet
marked down (and the flag is then set), on a successful cycle a recovered
alert is emitted iff the target is marked down (and the flag is then
cleared), and any unbroken run of failed cycles emits at most one down
alert. -/
theorem monitor_down_recovered_dedup (m : MonitorService) (target : Target)
    (ttype : String) (attempts : List ProbeResult) :
    (hasDown (monitor_cycle m target ttype attempts).2 = true ↔
      (ping_with_retry attempts).1 = false ∧ downFlag m target = false) ∧
    ((ping_with_retry attempts).1 = false →
      downFlag (monitor_cycle m target ttype attempts).1 target = true) ∧
    (hasRecovered (monitor_cycle m target ttype attempts).2 = true ↔
      (ping_with_retry attempts).1 = true ∧ downFlag m target = true) ∧
    ((ping_with_retry attempts).1 = true →
      downFlag (monitor_cycle m target ttype attempts).1 target = false) ∧
    (∀ cycles : List (List ProbeResult),
      (∀ c ∈ cycles, (ping_with_retry c).1 = false) →
      countDown (run_cycles m target ttype cycles).2 ≤ 1) := by
  refine ⟨?_, monitor_cycle_fail_downFlag m target ttype attempts,
    ?_, monitor_cycle_succ_downFlag m target ttype attempts, ?_⟩
  · cases hs : (ping_with_retry attempts).1
    · rw [monitor_cycle_fail_alerts m target ttype attempts hs]
      by_cases hf : downFlag m target = true
      · simp [hf, hasDown]
      · simp only [if_neg hf, hasDown]
        simp at hf
        simp [hf]
    · rw [monitor_cycle_succ_alerts m target ttype attempts hs]
      constructor
      · intro hd
        exfalso
        revert hd
        simp only [hasDown, List.any_append, Bool.or_eq_true]
        rintro (h1 | h2)
        · revert h1
          split_ifs <;> simp
        · revert h2
          split_ifs <;> simp
      · rintro ⟨hfalse, _⟩
        exact absurd hfalse (by simp)
  · cases hs : (ping_with_retry attempts).1
    · rw [monitor_cycle_fail_alerts m target ttype attempts hs]
      constructor
      · intro hd
        exfalso
        revert hd
        split_ifs <;> simp [hasRecovered]
      · rintro ⟨htrue, _⟩
        exact absurd htrue (by simp)
    · rw [monitor_cycle_succ_alerts m target ttype attempts hs]
      by_cases hf : downFlag m target = true
      · simp only [if_pos hf, hasRecovered, List.any_append, Bool.or_eq_true]
        constructor
        · intro _
          exact ⟨by simp, hf⟩
        · intro _
          right
          simp
      · simp only [if_neg hf, hasRecovered, List.any_append, Bool.or_eq_true]
        constructor
        · rintro (h1 | h2)
          · exfalso
            revert h1
            split_ifs <;> simp
          · simp at h2
        · rintro ⟨_, hflag⟩
          exact absurd hflag hf
  · intro cycles hall
    cases cycles with
    | nil => simp [run_cycles, countDown]
    | cons c rest =>
      have hc : (ping_with_retry c).1 = false := hall c (by simp)
      show countDown ((monitor_cycle m target ttype c).2 ++
        (run_cycles (monitor_cycle m target ttype c).1 target ttype rest).2) ≤ 1
      rw [countDown_append]
      have h2 := run_cycles_down_none target ttype rest (monitor_cycle m target ttype c).1
        (monitor_cycle_fail_downFlag m target ttype c hc)
        (fun c' hc' => hall c' (by simp [hc']))
      have h1 : countDown (monitor_cycle m target ttype c).2 ≤ 1 := by
        rw [monitor_cycle_fail_alerts m target ttype c hc]
        split_ifs <;> simp [countDown]
      omega

/-! ### FleetHealthMonitor: edge-triggered critical alert -/

theorem countCritical_append (l1 l2 : List Alert) :
    countCritical (l1 ++ l2) = countCritical l1 + countCritical l2 := by
  simp [countCritical, List.filter_append]

theorem health_step_skip (m : MonitorService) (b : Bool)
    (h : m.ping_targets.length = 0) : health_step m b = (b, []) := by
  rw [health_step, if_pos h]

theorem health_step_above (m : MonitorService) (b : Bool)
    (h0 : m.ping_targets.length ≠ 0) (hr : m.failure_percentage ≤ failureRate m) :
    health_step m b =
      if b then (b, [])
      else (true, [Alert.critical (failedCount m) m.ping_targets.length (failureRate m)]) := by
  rw [health_step, if_neg h0, if_pos hr]
  cases b <;> simp

theorem health_step_below (m : MonitorService) (b : Bool)
    (h0 : m.ping_targets.length ≠ 0) (hr : failureRate m < m.failure_percentage) :
    health_step m b = (false, []) := by
  rw [health_step, if_neg h0, if_neg (not_le.mpr hr)]

theorem health_run_above_none :
    ∀ ms : List MonitorService,
      (∀ m' ∈ ms, m'.ping_targets.length ≠ 0 ∧ m'.failure_percentage ≤ failureRate m') →
      countCritical (health_run ms true).2 = 0 := by
  intro ms
  induction ms with
  | nil =>
    intro _
    simp [health_run, countCritical]
  | cons m rest ih =>
    intro hall
    obtain ⟨h0, hr⟩ := hall m (by simp)
    show countCritical ((health_step m true).2 ++
      (health_run rest (health_step m true).1).2) = 0
    rw [countCritical_append]
    rw [health_step_above m true h0 hr]
    simp only [if_pos rfl]
    have hrest := ih (fun m' hm' => hall m' (by simp [hm']))
    simpa [countCritical] using hrest

/-- C2: the fleet-health check is skipped when no targets are configured;
one critical alert is emitted exactly when the failure rate reaches the
threshold while the fleet alert state is inactive, after which the state is
active; below the threshold the state is cleared silently, and a run of
at-or-above-threshold iterations emits at most one critical alert. -/
theorem fleet_critical_edge_triggered (m : MonitorService) (b : Bool) :
    (m.ping_targets.length = 0 → health_step m b = (b, [])) ∧
    (countCritical (health_step m b).2 = 1 ↔
      m.ping_targets.length ≠ 0 ∧ m.failure_percentage ≤ failureRate m ∧ b = false) ∧
    (m.ping_targets.length ≠ 0 → m.failure_percentage ≤ failureRate m →
      (health_step m b).1 = true) ∧
    (m.ping_targets.length ≠ 0 → failureRate m < m.failure_percentage →
      health_step m b = (false, [])) ∧
    (∀ (ms : List MonitorService) (b0 : Bool),
      (∀ m' ∈ ms, m'.ping_targets.length ≠ 0 ∧ m'.failure_percentage ≤ failureRate m') →
      countCritical (health_run ms b0).2 ≤ 1) := by
  refine ⟨health_step_skip m b, ?_, ?_, health_step_below m b, ?_⟩
  · by_cases h0 : m.ping_targets.length = 0
    · rw [health_step_skip m b h0]
      simp [countCritical, h0]
    · by_cases hr : m.failure_percentage ≤ failureRate m
      · rw [health_step_above m b h0 hr]
        cases b <;> simp [countCritical, h0, hr]
      · rw [health_step_below m b h0 (lt_of_not_le hr)]
        simp [countCritical, hr]
  · intro h0 hr
    rw [health_step_above m b h0 hr]
    cases b <;> simp
  · intro ms b0 hall
    cases ms with
    | nil => simp [health_run, countCritical]
    | cons m' rest =>
      obtain ⟨h0, hr⟩ := hall m' (by simp)
      show countCritical ((health_step m' b0).2 ++
        (health_run rest (health_step m' b0).1).2) ≤ 1
      rw [countCritical_append]
      have hstep1 : (health_step m' b0).1 = true := by
        rw [health_step_above m' b0 h0 hr]
        cases b0 <;> simp
      have hrest : countCritical (health_run rest (health_step m' b0).1).2 = 0 := by
        rw [hstep1]
        exact health_run_above_none rest (fun m'' hm'' => hall m'' (by simp [hm'']))
      have hfirst : countCritical (health_step m' b0).2 ≤ 1 := by
        rw [health_step_above m' b0 h0 hr]
        cases b0 <;> simp [countCritical]
      omega

/-! ### Concrete scenario states -/

/-- A monitor with one target "a", nothing recorded, nothing failed. -/
def plainMonitor : MonitorService :=
  { ping_targets := ["a"], retry_attempts := 3, anomaly_count := 5,
    failure_percentage := 50,
    ping_service := emptyService, failed_targets := [], latest_latency := [] }

/-- A monitor with its single target "a" currently marked down. -/
def downMonitor : MonitorService :=
  { ping_targets := ["a"], retry_attempts := 3, anomaly_count := 5,
    failure_percentage := 50,
    ping_service := emptyService, failed_targets := [("a", true)],
    latest_latency := [] }

/-- The C8 scenario monitor: `anomalyCount = 5`, threshold 30 %, target "a"
with ten prior 20 ms samples. -/
def scenarioMonitor : MonitorService :=
  { ping_targets := ["a"], retry_attempts := 3, anomaly_count := 5,
    failure_percentage := 50,
    ping_service := baseService, failed_targets := [], latest_latency := [] }

theorem monitor_down_recovered_dedup_witness :
    countDown (run_cycles plainMonitor "a" "ICMP" [[⟨false, 0⟩], [⟨false, 0⟩]]).2 ≤ 1 :=
  (monitor_down_recovered_dedup plainMonitor "a" "ICMP" [⟨false, 0⟩]).2.2.2.2
    [[⟨false, 0⟩], [⟨false, 0⟩]] (by decide)

theorem fleet_critical_edge_triggered_witness :
    countCritical (health_run [downMonitor, downMonitor] false).2 ≤ 1 :=
  (fleet_critical_edge_triggered downMonitor false).2.2.2.2
    [downMonitor, downMonitor] false (by
      intro m' hm'
      simp only [List.mem_cons, List.not_mem_nil, or_false] at hm'
      rcases hm' with h | h <;>
        (subst h
         refine ⟨by decide, ?_⟩
         norm_num [failureRate, failedCount, downMonitor]))

/-- C8 counterexample: in the spec's scenario (ten prior 20 ms samples,
threshold 30 %, five successful 40 ms cycles), the single anomaly alert
carries rolling mean 80/3 ≈ 26.7 ms, which is not ≈ 20.0 (the sample is
recorded into the history before the evaluation, so the mean includes the
40 ms samples). -/
theorem anomaly_scenario_mean_cex :
    (run_cycles scenarioMonitor "a" "ICMP" (List.replicate 5 [⟨true, 40⟩])).2
      = [Alert.anomaly "a" "ICMP" 40 (80 / 3) 5] ∧
    ¬ ((20 : ℚ) - 2 ≤ 80 / 3 ∧ (80 : ℚ) / 3 ≤ 20 + 2) := by
  constructor
  · norm_num [scenarioMonitor, baseService, run_cycles, monitor_cycle, ping_with_retry,
      pingLoop, add_to_history, check_anomaly, ddGet, dictSet, dictGet?, dictGetD, mean,
      dequeAppend, List.replicate]
  · norm_num

/-- C8 amended: the scenario emits no alert during the first four cycles and
exactly one anomaly alert on the fifth, carrying rolling mean 80/3 ≈ 26.7 ms
(not ≈ 20.0, because the current sample is recorded before evaluation). -/
theorem anomaly_scenario_amended :
    (run_cycles scenarioMonitor "a" "ICMP" (List.replicate 4 [⟨true, 40⟩])).2 = [] ∧
    (run_cycles scenarioMonitor "a" "ICMP" (List.replicate 5 [⟨true, 40⟩])).2
      = [Alert.anomaly "a" "ICMP" 40 (80 / 3) 5] := by
  constructor <;>
    norm_num [scenarioMonitor, baseService, run_cycles, monitor_cycle, ping_with_retry,
      pingLoop, add_to_history, check_anomaly, ddGet, dictSet, dictGet?, dictGetD, mean,
      dequeAppend, List.replicate]

/-! ### Statistics query (`get_latency_statistics`) -/

/-- The status string reported for a target. -/
def statusOf (m : MonitorService) (t : Target) : String :=
  if downFlag m t then "offline" else "online"

/-- The rolling mean reported for a target: 0.0 when its history is empty. -/
def rollingAvg (s : PingService) (t : Target) : ℚ :=
  if histOf s t = [] then 0 else mean (histOf s t)

/-- The monitor state after `get_average_latency` ran for one target inside
the statistics loop. -/
def mAfter (m : MonitorService) (t : Target) : MonitorService :=
  { m with ping_service := (get_average_latency m.ping_service t).2 }

theorem get_average_latency_proj (s : PingService) (t : Target) :
    get_average_latency s t =
      if ((ddGet s.ping_history [] t).1).length = 0 then
        ((0 : ℚ), { s with ping_history := (ddGet s.ping_history [] t).2 })
      else
        (mean (ddGet s.ping_history [] t).1,
          { s with ping_history := (ddGet s.ping_history [] t).2 }) :=
  rfl

theorem gal_fst (s : PingService) (t : Target) :
    (get_average_latency s t).1 = rollingAvg s t := by
  rw [get_average_latency_proj, ddGet_hist_fst, rollingAvg]
  by_cases h : histOf s t = []
  · rw [if_pos (by rw [h]; rfl), if_pos h]
  · rw [if_neg (by simpa [List.length_eq_zero] using h), if_neg h]

theorem gal_histOf (s : PingService) (t t' : Target) :
    histOf (get_average_latency s t).2 t' = histOf s t' := by
  rw [get_average_latency_proj]
  split_ifs <;> exact dictGetD_ddGet_snd s.ping_history [] t t'

theorem gal_counters (s : PingService) (t : Target) :
    (get_average_latency s t).2.anomaly_counters = s.anomaly_counters := by
  rw [get_average_latency_proj]
  split_ifs <;> rfl

theorem statsLoop_proj (m : MonitorService) (t : Target) (ts : List Target) :
    statsLoop m (t :: ts) =
      (TargetInfo.mk t (statusOf m t) (dictGetD m.latest_latency t 0)
          (get_average_latency m.ping_service t).1 :: (statsLoop (mAfter m t) ts).1,
        (if statusOf m t = "online" then 1 else 0) + (statsLoop (mAfter m t) ts).2.1,
        (statsLoop (mAfter m t) ts).2.2) :=
  rfl

theorem statsLoop_spec (ts : List Target) :
    ∀ m : MonitorService,
      (statsLoop m ts).1 = ts.map (fun t =>
          TargetInfo.mk t (statusOf m t) (dictGetD m.latest_latency t 0)
            (rollingAvg m.ping_service t)) ∧
      (statsLoop m ts).2.1 = (ts.filter (fun t => statusOf m t = "online")).length ∧
      (statsLoop m ts).2.2.ping_targets = m.ping_targets ∧
      (statsLoop m ts).2.2.failed_targets = m.failed_targets ∧
      (statsLoop m ts).2.2.latest_latency = m.latest_latency ∧
      (statsLoop m ts).2.2.ping_service.anomaly_counters
        = m.ping_service.anomaly_counters ∧
      (∀ t', histOf (statsLoop m ts).2.2.ping_service t' = histOf m.ping_service t') := by
  induction ts with
  | nil =>
    intro m
    exact ⟨rfl, rfl, rfl, rfl, rfl, rfl, fun _ => rfl⟩
  | cons t ts ih =>
    intro m
    have ihm := ih (mAfter m t)
    have hhist : ∀ t', histOf (mAfter m t).ping_service t' = histOf m.ping_service t' :=
      fun t' => gal_histOf m.ping_service t t'
    have hcnt : (mAfter m t).ping_service.anomaly_counters
        = m.ping_service.anomaly_counters := gal_counters m.ping_service t
    have hravg : ∀ t', rollingAvg (mAfter m t).ping_service t'
        = rollingAvg m.ping_service t' := by
      intro t'
      rw [rollingAvg, rollingAvg, hhist t']
    rw [statsLoop_proj]
    refine ⟨?_, ?_, ?_, ?_, ?_, ?_, ?_⟩
    · rw [List.map_cons]
      refine congrArg₂ _ ?_ ?_
      · rw [gal_fst]
      · rw [ihm.1]
        refine List.map_congr_left ?_
        intro t' _
        rw [hravg t']
        rfl
    · have hfil : ts.filter (fun t' => statusOf (mAfter m t) t' = "online")
          = ts.filter (fun t' => statusOf m t' = "online") := rfl
      rw [ihm.2.1, hfil, List.filter_cons]
      by_cases hs : statusOf m t = "online"
      · simp [hs]
        omega
      · simp [hs]
    · exact ihm.2.2.1
    · exact ihm.2.2.2.1
    · exact ihm.2.2.2.2.1
    · exact ihm.2.2.2.2.2.1.trans hcnt
    · intro t'
      exact (ihm.2.2.2.2.2.2 t').trans (hhist t')

theorem get_latency_statistics_proj (m : MonitorService) :
    get_latency_statistics m =
      (Stats.mk (statsLoop m m.ping_targets).1 (statsLoop m m.ping_targets).2.1
        m.ping_targets.length, (statsLoop m m.ping_targets).2.2) :=
  rfl

/-- C9 amended: `get_latency_statistics` reports each configured target with
status "online" iff it is not marked down, its latest latency (0.0 if none)
and its rolling mean (0.0 for an empty history), plus the online and total
counts; it leaves the down flags, the latest-latency map, the anomaly
counters and every target's history contents unchanged — but it is not
mutation-free: the `defaultdict` read in `get_average_latency` may insert
empty history entries for targets not yet present. -/
theorem get_latency_statistics_spec (m : MonitorService) :
    ((get_latency_statistics m).1).targets
        = m.ping_targets.map (fun t =>
            TargetInfo.mk t (statusOf m t) (dictGetD m.latest_latency t 0)
              (rollingAvg m.ping_service t)) ∧
    ((get_latency_statistics m).1).online_count
        = (m.ping_targets.filter (fun t => statusOf m t = "online")).length ∧
    ((get_latency_statistics m).1).total_count = m.ping_targets.length ∧
    (∀ t, statusOf m t = "online" ↔ downFlag m t = false) ∧
    (get_latency_statistics m).2.ping_targets = m.ping_targets ∧
    (get_latency_statistics m).2.failed_targets = m.failed_targets ∧
    (get_latency_statistics m).2.latest_latency = m.latest_latency ∧
    (get_latency_statistics m).2.ping_service.anomaly_counters
        = m.ping_service.anomaly_counters ∧
    (∀ t, histOf (get_latency_statistics m).2.ping_service t
        = histOf m.ping_service t) := by
  have h := statsLoop_spec m.ping_targets m
  rw [get_latency_statistics_proj]
  refine ⟨h.1, h.2.1, rfl, ?_, h.2.2.1, h.2.2.2.1, h.2.2.2.2.1, h.2.2.2.2.2.1,
    h.2.2.2.2.2.2⟩
  intro t
  rw [statusOf]
  by_cases hf : downFlag m t = true
  · rw [if_pos hf, hf]
    constructor
    · intro hh
      exact absurd hh (by decide)
    · intro hh
      exact absurd hh (by decide)
  · rw [if_neg hf]
    simp at hf
    rw [hf]
    constructor
    · intro _
      rfl
    · intro _
      rfl

/-- C9 counterexample: on a monitor whose target "a" has no history entry
yet, the statistics query mutates the monitor state — the per-target history
map gains an empty entry for "a". -/
theorem stats_query_mutates_cex :
    (get_latency_statistics plainMonitor).2 ≠ plainMonitor ∧
    (get_latency_statistics plainMonitor).2.ping_service.ping_history = [("a", [])] ∧
    plainMonitor.ping_service.ping_history = [] :=
  ⟨by decide, by decide, rfl⟩

end Aurora
